import Mathlib

/-!
# Verification of the `protor` scraper/crawler core

Shallow embedding of `src/protor/scraper.py` and `src/protor/crawler.py`.

Python strings are modelled as `List Char` (`Str`).  The parsed HTML
document (a `BeautifulSoup` value) is modelled by the structure `Html`,
whose fields are exactly the query results the extractor functions
consume: `anchors` is the list of `href` attributes returned by
`soup.find_all("a", href=True)` in document order, `scripts` the list of
`src` attributes of `soup.find_all("script", src=True)`, `title` the
optional `<title>` tag together with its optional `.string` content,
`metas` the list of `<meta>` tags (absent attributes modelled as `""`,
matching `meta.get(..., "")`), and `textNodes` the text nodes that
survive decomposition of `script/style/nav/footer/header` subtrees
(what `soup.get_text(separator="\n")` joins).

The Python idiom `list(set(xs))` enumerates the distinct elements of `xs` in an
order determined by interpreter string hashing (randomized per
process); it is modelled by an explicit conversion function `setList`
constrained only by `SetListSpec` (duplicate-free, same elements).

Exceptions are modelled with `Except PyErr`; `subprocess.run` is an
oracle of type `Except PyErr SubprocResult`.
-/

abbrev Str := List Char

def str (s : String) : Str := s.toList

/-- Python `AttributeError` (the only exception the embedded code raises
itself); other caught exceptions are irrelevant to the claims. -/
inductive PyErr where
  | attributeError
  deriving DecidableEq, Repr

/-- A `<meta>` tag: `meta.get("name","")`, `meta.get("property","")`,
`meta.get("content","")`. -/
structure MetaTag where
  name : Str
  property : Str
  content : Str
  deriving DecidableEq, Repr

/-- Abstraction of a parsed `BeautifulSoup` document (see module header).
`title = none` models a document without a `<title>` tag; `title = some none`
a `<title>` tag whose `.string` is `None` (e.g. an empty title). -/
structure Html where
  anchors : List Str
  scripts : List Str
  title : Option (Option Str)
  metas : List MetaTag
  textNodes : List Str
  deriving DecidableEq, Repr

/-! ## URL model (`urllib.parse.urlparse` / `urljoin`, restricted to the
scheme/netloc/fragment behaviour the code consumes) -/

/-- Model: `full_url.split("#")[0]`: everything before the first `#`. -/
def stripFragment (u : Str) : Str := u.takeWhile (· ≠ '#')

/-- Split a fragment-free URL at the first `"://"`: returns
`(scheme, rest)` when the separator occurs. -/
def schemeSplit : Str → Option (Str × Str)
  | [] => none
  | ':' :: '/' :: '/' :: rest => some ([], rest)
  | c :: rest => (schemeSplit rest).map (fun p => (c :: p.1, p.2))

/-- Model: `urlparse(u).scheme` (the fragment is split off first, as in
`urllib.parse`). -/
def urlScheme (u : Str) : Str :=
  match schemeSplit (stripFragment u) with
  | some (s, _) => s
  | none => []

/-- Model: `urlparse(u).netloc`: after `"://"`, up to the first `/` or `?`
(the fragment is split off first). -/
def urlNetloc (u : Str) : Str :=
  match schemeSplit (stripFragment u) with
  | some (_, r) => r.takeWhile (fun c => c ≠ '/' ∧ c ≠ '?')
  | none => []

/-- The directory part of a path: up to and including the last `/`. -/
def dirPart (p : Str) : Str := (p.reverse.dropWhile (· ≠ '/')).reverse

/-- Model: `urllib.parse.urljoin(base, href)` restricted to the cases the
scraper exercises: an absolute `href` (with scheme) wins; otherwise the
reference is resolved against the base scheme/netloc (root-relative
for a leading `/`, directory-relative otherwise). -/
def urljoin (base href : Str) : Str :=
  if href = [] then base
  else if (schemeSplit href).isSome then href
  else
    match schemeSplit base with
    | none => href
    | some (s, rest) =>
      let netloc := rest.takeWhile (fun c => c ≠ '/' ∧ c ≠ '?')
      let path := rest.drop netloc.length
      if href.head? = some '/' then
        s ++ (':' :: '/' :: '/' :: netloc) ++ href
      else
        let d := dirPart path
        s ++ (':' :: '/' :: '/' :: netloc) ++ (if d = [] then '/' :: href else d ++ href)

/-! ## Helper string operations -/

/-- Python `str.strip()`. -/
def pyStrip (s : Str) : Str :=
  ((s.dropWhile Char.isWhitespace).reverse.dropWhile Char.isWhitespace).reverse

/-- Python `str.split(c)` for a one-character separator. -/
def splitOnChar (c : Char) : Str → List Str
  | [] => [[]]
  | a :: rest =>
    if a = c then [] :: splitOnChar c rest
    else
      match splitOnChar c rest with
      | [] => [[a]]
      | h :: t => (a :: h) :: t

/-- Python `str.split("  ")` (two spaces, greedy left-to-right,
non-overlapping). -/
def splitTwoSpaces : Str → List Str
  | [] => [[]]
  | ' ' :: ' ' :: rest => [] :: splitTwoSpaces rest
  | a :: rest =>
    match splitTwoSpaces rest with
    | [] => [[a]]
    | h :: t => (a :: h) :: t

/-- Python `str.lower()` restricted to ASCII case folding. -/
def pyLower (s : Str) : Str := s.map Char.toLower

/-- The contract Python guarantees for `list(set(xs))`: a duplicate-free
list with exactly the elements of `xs` (the order is the iteration order
of the hash set and is left unconstrained). -/
def SetListSpec (f : List Str → List Str) : Prop :=
  ∀ l : List Str, (f l).Nodup ∧ ∀ x : Str, x ∈ f l ↔ x ∈ l

/-! ## `scraper.py`: the extractor functions -/

/-- Model: `fetch_with_curl` (scraper.py:15-29).  The behaviour of
`subprocess.run` is an oracle: either a completed process
(return code and captured stdout) or a raised exception
(`TimeoutExpired`, `OSError`, ...).  The `except` branch prints and
returns `("", False)`; otherwise
`success = result.returncode == 0 and len(result.stdout) > 0` and
`result.stdout` is returned unconditionally. -/
structure SubprocResult where
  returncode : Int
  stdout : Str
  deriving DecidableEq, Repr

def fetch_with_curl (run : Except PyErr SubprocResult) : Str × Bool :=
  match run with
  | .error _ => ([], false)
  | .ok r => (r.stdout, decide (r.returncode = 0 ∧ 0 < r.stdout.length))

/-- The result dictionary of `extract_metadata` (scraper.py:33-39);
`og_tags` is a Python dict, modelled as an insertion-ordered
association list. -/
structure Metadata where
  title : Str
  description : Str
  keywords : List Str
  author : Str
  og_tags : List (Str × Str)
  deriving DecidableEq, Repr

/-- Python dict assignment `d[k] = v` on an insertion-ordered
association list: overwrite in place, else append. -/
def dictSet (k v : Str) : List (Str × Str) → List (Str × Str)
  | [] => [(k, v)]
  | (k', v') :: rest => if k' = k then (k, v) :: rest else (k', v') :: dictSet k v rest

/-- One iteration of the `for meta in soup.find_all("meta")` loop
(scraper.py:44-56). -/
def metaStep (m : Metadata) (tag : MetaTag) : Metadata :=
  let name := pyLower tag.name
  let prop := pyLower tag.property
  let content := tag.content
  if name = str "description" then { m with description := content }
  else if name = str "keywords" then
    { m with keywords := (splitOnChar ',' content).map pyStrip }
  else if name = str "author" then { m with author := content }
  else if (str "og:").isPrefixOf prop then
    { m with og_tags := dictSet prop content m.og_tags }
  else m

/-- Model: `extract_metadata` (scraper.py:31-58).  `if soup.title:` is true for
any present `<title>` tag (a `Tag` is truthy even when empty), and
`soup.title.string.strip()` raises `AttributeError` when `.string` is
`None`. -/
def extract_metadata (doc : Html) : Except PyErr Metadata :=
  let base : Metadata :=
    { title := [], description := [], keywords := [], author := [], og_tags := [] }
  match doc.title with
  | some none => Except.error PyErr.attributeError
  | some (some s) => Except.ok (doc.metas.foldl metaStep { base with title := pyStrip s })
  | none => Except.ok (doc.metas.foldl metaStep base)

/-- The loop body of `extract_js_links` (scraper.py:65-68): each script
`src` resolved against the base URL, in document order. -/
def jsRaw (doc : Html) (base_url : Str) : List Str :=
  doc.scripts.map (urljoin base_url)

/-- Model: `extract_js_links` (scraper.py:60-70); `list(set(js_links))` is the
ambient `setList`. -/
def extract_js_links (setList : List Str → List Str) (doc : Html) (base_url : Str) :
    List Str :=
  setList (jsRaw doc base_url)

/-- The loop of `extract_links` (scraper.py:79-89): resolve each href,
keep same-domain http(s) URLs, strip the fragment, drop the base URL. -/
def linksRaw (doc : Html) (base_url : Str) : List Str :=
  doc.anchors.filterMap (fun href =>
    let full_url := urljoin base_url href
    if urlNetloc full_url = urlNetloc base_url ∧
        (urlScheme full_url = str "http" ∨ urlScheme full_url = str "https") then
      let clean_url := stripFragment full_url
      if clean_url ≠ base_url then some clean_url else none
    else none)

/-- Model: `extract_links` (scraper.py:73-91); `list(set(links))` is the
ambient `setList`. -/
def extract_links (setList : List Str → List Str) (doc : Html) (base_url : Str) :
    List Str :=
  setList (linksRaw doc base_url)

/-- Model: `extract_text_content` (scraper.py:93-106).  `doc` is the parse of
the html with `script/style/nav/footer/header` already decomposed;
`soup.get_text(separator="\n")` is the `"\n"`-join of the surviving
text nodes. -/
def extract_text_content (doc : Html) : Str :=
  let text := List.intercalate ['\n'] doc.textNodes
  let lines := (splitOnChar '\n' text).map pyStrip
  let chunks := lines.flatMap (fun line => (splitTwoSpaces line).map pyStrip)
  let text' := List.intercalate ['\n'] (chunks.filter (· ≠ []))
  text'.take 10000

/-! ## `scraper.py`: the scrape pipeline -/

/-- Model: `safe_filename` (utils.py:7-8): every character outside
`[a-zA-Z0-9_-]` is replaced by `_`. -/
def safe_filename (name : Str) : Str :=
  name.map (fun c =>
    if ('a' ≤ c ∧ c ≤ 'z') ∨ ('A' ≤ c ∧ c ≤ 'Z') ∨ ('0' ≤ c ∧ c ≤ '9') ∨
        c = '_' ∨ c = '-' then c else '_')

/-- Model: `os.path.join` for two components. -/
def pathJoin (a b : Str) : Str := a ++ '/' :: b

/-- The manifest dictionary built by `scrape_website` (scraper.py:159-169). -/
structure Manifest where
  url : Str
  domain : Str
  html_file : Str
  metadata : Metadata
  text_content : Str
  js_files : List Str
  js_count : Nat
  timestamp : Str
  success : Bool
  deriving DecidableEq, Repr

/-- Model: `scrape_website` (scraper.py:123-175).  External effects are
oracles: `run` is the subprocess behaviour of the inner
`fetch_with_curl`, `doc` the `BeautifulSoup` parse of the fetched html,
`dlOk js_url` whether `download_file` succeeds for that script URL, and
`now` the `timestamp()` value.  The Python function returns `None` on a
failed or empty fetch; an `AttributeError` escaping `extract_metadata`
propagates out of `scrape_website` (modelled by `Except`). -/
def scrape_website (setList : List Str → List Str) (run : Except PyErr SubprocResult)
    (doc : Html) (dlOk : Str → Bool) (now : Str)
    (url : Str) (output_dir : Str) (download_js : Bool) :
    Except PyErr (Option Manifest) :=
  let site_dir := pathJoin output_dir (safe_filename (urlNetloc url))
  let fetched := fetch_with_curl run
  let html := fetched.1
  if fetched.2 = false ∨ html = [] then Except.ok none
  else
    let html_path := pathJoin site_dir (str "index.html")
    match extract_metadata doc with
    | Except.error e => Except.error e
    | Except.ok metadata =>
      let text_content := extract_text_content doc
      let js_downloaded :=
        if download_js then ((extract_js_links setList doc url).take 10).filter dlOk
        else []
      Except.ok (some
        { url := url
          domain := urlNetloc url
          html_file := html_path
          metadata := metadata
          text_content := text_content
          js_files := js_downloaded
          js_count := js_downloaded.length
          timestamp := now
          success := true })

/-! ## `crawler.py`: frontier/visited small-step model (claim C1)

One iteration of the `while` loop in `Crawler.crawl` (crawler.py:240-288)
performs, in order: `popleft` (241), the visited check (243-244),
`visited.add` (251), and — on fetch success — one guarded
`queue.append` per discovered link (263-265).  The frontier and the
visited set are touched by no other code.  The model is a small-step
relation over these four operations; the program counter `CrawlPc`
records the position inside an iteration, exactly as the loop body
orders them. -/

inductive CrawlPc where
  | top      -- at the loop head
  | popped   -- after `popleft`, before the visited check
  | marked   -- after `visited.add`, links may now be appended
  deriving DecidableEq, Repr

structure CrawlSt where
  queue : List Str
  visited : List Str
  current : Option Str
  pc : CrawlPc
  deriving DecidableEq, Repr

/-- The guarded enqueue (crawler.py:264-265):
`if link not in self.visited and link not in self.queue:
self.queue.append(link)`. -/
def enq (l : Str) (s : CrawlSt) : CrawlSt :=
  if l ∉ s.visited ∧ l ∉ s.queue then { s with queue := s.queue ++ [l] } else s

/-- The initial crawler state (crawler.py:28-29):
`self.visited = set()`, `self.queue = deque([start_url])`. -/
def crawlInit (start_url : Str) : CrawlSt :=
  { queue := [start_url], visited := [], current := none, pc := .top }

/-- One atomic operation of the crawl loop on the frontier/visited
state. -/
inductive CrawlStep : CrawlSt → CrawlSt → Prop
  /-- Model: `self.current_url = self.queue.popleft()` (241). -/
  | pop (u : Str) (rest visited : List Str) :
      CrawlStep ⟨u :: rest, visited, none, .top⟩ ⟨rest, visited, some u, .popped⟩
  /-- Model: `if self.current_url in self.visited: continue` (243-244). -/
  | skip (u : Str) (queue visited : List Str) (h : u ∈ visited) :
      CrawlStep ⟨queue, visited, some u, .popped⟩ ⟨queue, visited, none, .top⟩
  /-- Model: `self.visited.add(self.current_url)` (251), reached only when the
  visited check failed. -/
  | mark (u : Str) (queue visited : List Str) (h : u ∉ visited) :
      CrawlStep ⟨queue, visited, some u, .popped⟩ ⟨queue, u :: visited, some u, .marked⟩
  /-- One guarded `queue.append` for a discovered link (263-265). -/
  | enqueue (l : Str) (s : CrawlSt) (h : s.pc = .marked) :
      CrawlStep s (enq l s)
  /-- End of the loop body: back to the loop head (288 → 240). -/
  | finish (u : Str) (queue visited : List Str) :
      CrawlStep ⟨queue, visited, some u, .marked⟩ ⟨queue, visited, none, .top⟩

/-- Reachability from the initial crawler state. -/
def CrawlReach (start_url : Str) (s : CrawlSt) : Prop :=
  Relation.ReflTransGen CrawlStep (crawlInit start_url) s

/-! ## `crawler.py`: analysis status lifecycle (claim C2)

Per-URL lifecycle of an analysis task.  The producer (crawl loop,
crawler.py:276-277) writes `analysis_results[url] = queued` and then
`analysis_queue.put(page_data)`; `Queue.get` returns a task only after
the corresponding `put`, so the first consumer write for the URL
(`analyzing`, line 184) happens after `queued`.  A URL is submitted
at most once: the producer only reaches line 276 for a URL that was not
in `visited` (line 243) and was added to `visited` (line 251) in the
same iteration, so no second `queued` write exists.  On a failure
inside `analyze_page` the bare `except` (207-209) leaves the status at
`analyzing` and never writes `queued`. -/

inductive AStatus where
  | queued
  | analyzing
  | complete
  deriving DecidableEq, Repr

def AStatus.rank : AStatus → Nat
  | .queued => 0
  | .analyzing => 1
  | .complete => 2

inductive TaskPhase where
  /-- URL not yet scraped: no entry in `analysis_results`. -/
  | unsubmitted
  /-- Producer ran lines 276-277: status `queued`, task in the queue. -/
  | inQueue
  /-- Worker ran `get` and line 184: status `analyzing`. -/
  | working
  /-- Model: `analyze_page` succeeded, line 202 ran: status `complete`. -/
  | done
  /-- Model: `analyze_page` raised; bare `except` (207): status stays `analyzing`. -/
  | failed
  deriving DecidableEq, Repr

/-- The value of `analysis_results[url]` in each lifecycle phase
(`none` = key absent). -/
def statusOf : TaskPhase → Option AStatus
  | .unsubmitted => none
  | .inQueue => some .queued
  | .working => some .analyzing
  | .done => some .complete
  | .failed => some .analyzing

/-- The status-affecting steps of producer and consumer for one URL. -/
inductive TaskStep : TaskPhase → TaskPhase → Prop
  /-- crawler.py:276-277 — `analysis_results[url] = queued; queue.put(...)`. -/
  | submit : TaskStep .unsubmitted .inQueue
  /-- crawler.py:182-184 — `queue.get(); analysis_results[url] = analyzing`. -/
  | take : TaskStep .inQueue .working
  /-- crawler.py:190-202 — analysis succeeds, `analysis_results[url] = complete`. -/
  | finish : TaskStep .working .done
  /-- crawler.py:207-209 — analysis raises, status left as last written. -/
  | fail : TaskStep .working .failed

/-! ## `crawler.py`: shutdown / drain model (claim C3)

The end of `Crawler.crawl` with analysis enabled (crawler.py:293-301)
runs, in order: `self.analysis_queue.join()` — which returns only once
`task_done` has been called for every `put` item (the worker calls
`task_done` in a `finally`, line 205, so every consumed task is
acknowledged whether analysis succeeded or raised) —, then
`self.stop_analysis.set()` and `self.analysis_thread.join(timeout=2)`,
and only then the computation of `complete_count` (300) and its report
(301).  `pending` counts tasks that were `put` but not yet
`task_done`. -/

inductive DrainPhase where
  /-- Inside the main crawl loop (crawler.py:240-288). -/
  | crawling
  /-- Main loop exited, blocked in `analysis_queue.join()` (295). -/
  | draining
  /-- Model: `join()` returned; `stop_analysis.set()` and thread join ran (296-298). -/
  | stopped
  /-- Model: `complete_count` computed and printed (300-301). -/
  | reported
  deriving DecidableEq, Repr

structure DrainSt where
  pending : Nat
  phase : DrainPhase
  deriving DecidableEq, Repr

inductive DrainStep : DrainSt → DrainSt → Prop
  /-- Main loop submits a task (`analysis_queue.put`, 277). -/
  | submit (n : Nat) : DrainStep ⟨n, .crawling⟩ ⟨n + 1, .crawling⟩
  /-- Worker finishes one task (`task_done` in the `finally`, 205);
  the worker runs both during the crawl and during the drain. -/
  | process (n : Nat) (ph : DrainPhase) (h : ph = .crawling ∨ ph = .draining) :
      DrainStep ⟨n + 1, ph⟩ ⟨n, ph⟩
  /-- The main loop exits and calls `analysis_queue.join()` (293-295). -/
  | finishLoop (n : Nat) : DrainStep ⟨n, .crawling⟩ ⟨n, .draining⟩
  /-- Model: `join()` returns — possible only with no unfinished task — then
  `stop_analysis.set()` and `analysis_thread.join` (295-298). -/
  | joinDone : DrainStep ⟨0, .draining⟩ ⟨0, .stopped⟩
  /-- Model: `complete_count` is computed and reported (300-301). -/
  | report : DrainStep ⟨0, .stopped⟩ ⟨0, .reported⟩

/-- Reachability of shutdown states from the start of the crawl. -/
def DrainReach (s : DrainSt) : Prop :=
  Relation.ReflTransGen DrainStep ⟨0, .crawling⟩ s

/-! ## `crawler.py`: the main loop as a function (claim C4)

`Crawler.crawl` (crawler.py:240-288) with the network abstracted per
URL: `fetchOk u` is the success flag of the outer `fetch_with_curl(u)`
(259), `pageLinks u` the value of `extract_links(html, u)` (262),
`scrapeRun u` the subprocess behaviour of the second fetch performed
inside the `scrape_website(u, ...)` call (267), and `pageDoc u` the
parse of the html that inner fetch returns.  The loop body sits in a
`try`/`finally` with no `except` (258-279), so an exception raised by
`scrape_website` — the `AttributeError` of `extract_metadata` on a
`<title>` whose `.string` is `None`, the bug of claim C6 — propagates
out of `crawl()` and aborts the whole loop before `scraped_count += 1`
(268) runs; the counter is incremented exactly when `scrape_website`
returns normally (with a manifest or with `None`). -/

/-- The `for link in new_links` loop (crawler.py:263-265): guarded
appends against the fixed visited set and the growing queue. -/
def enqAll (visited : List Str) (queue : List Str) (links : List Str) : List Str :=
  links.foldl (fun q l => if l ∉ visited ∧ l ∉ q then q ++ [l] else q) queue

/-- The `while self.queue and self.scraped_count < self.max_pages` loop
(crawler.py:240-288): returns the final `(queue, visited,
scraped_count)`, or the exception that escaped the loop body
(the `scrape_website` call at 267 is the only one whose exception the
`try`/`finally` does not handle).  Links are enqueued (263-265) before
`scrape_website` is called, as in the source. -/
def crawlLoop (fetchOk : Str → Bool) (setList : List Str → List Str)
    (scrapeRun : Str → Except PyErr SubprocResult) (pageDoc : Str → Html)
    (dlOk : Str → Bool) (now : Str) (output_dir : Str)
    (pageLinks : Str → List Str) (maxPages : Nat) :
    List Str → List Str → Nat → Except PyErr (List Str × List Str × Nat)
  | [], visited, scraped => Except.ok ([], visited, scraped)
  | u :: rest, visited, scraped =>
    if _hm : maxPages ≤ scraped then Except.ok (u :: rest, visited, scraped)
    else if u ∈ visited then
      crawlLoop fetchOk setList scrapeRun pageDoc dlOk now output_dir
        pageLinks maxPages rest visited scraped
    else
      let visited' := u :: visited
      if fetchOk u then
        let queue' := enqAll visited' rest (pageLinks u)
        match scrape_website setList (scrapeRun u) (pageDoc u) dlOk now
          u output_dir false with
        | Except.error e => Except.error e
        | Except.ok _ =>
          crawlLoop fetchOk setList scrapeRun pageDoc dlOk now output_dir
            pageLinks maxPages queue' visited' (scraped + 1)
      else
        crawlLoop fetchOk setList scrapeRun pageDoc dlOk now output_dir
          pageLinks maxPages rest visited' scraped
termination_by queue _ scraped => (maxPages - scraped, queue.length)
decreasing_by
  · exact Prod.Lex.right _ (Nat.lt_succ_self _)
  · exact Prod.Lex.left _ _ (by omega)
  · exact Prod.Lex.right _ (Nat.lt_succ_self _)

/-- URLs reachable from the start URL by following extracted links
(the pages a crawl with unlimited budget could visit). -/
inductive Reach (pageLinks : Str → List Str) (start_url : Str) : Str → Prop
  | base : Reach pageLinks start_url start_url
  | step {u l : Str} : Reach pageLinks start_url u → l ∈ pageLinks u →
      Reach pageLinks start_url l

/-- Invariant of the frontier/visited state: the queue is duplicate-free,
no visited URL is in the queue, and between `popleft` and `visited.add`
the popped URL is not in the queue. -/
def CrawlInv (s : CrawlSt) : Prop :=
  s.queue.Nodup ∧ (∀ u ∈ s.visited, u ∉ s.queue) ∧
    (s.pc = .popped → ∀ u, s.current = some u → u ∉ s.queue)

/-- Loop invariant of `crawlLoop` when every fetch succeeds, over the
state `(queue, visited, scraped_count)`: the visited list is
duplicate-free, the scrape counter equals the number of visited pages,
every link of a visited page is visited or queued, and the start URL is
visited or queued. -/
def LoopInv (pageLinks : Str → List Str) (start_url : Str)
    (st : List Str × List Str × Nat) : Prop :=
  st.2.1.Nodup ∧ st.2.1.length = st.2.2 ∧
    (∀ x ∈ st.2.1, ∀ l ∈ pageLinks x, l ∈ st.2.1 ∨ l ∈ st.1) ∧
    (start_url ∈ st.2.1 ∨ start_url ∈ st.1)

/-! ## Concrete instances used by witnesses and counterexamples -/

/-- A document with no tags at all (`<html></html>`). -/
def emptyDoc : Html := ⟨[], [], none, [], []⟩

/-- A document whose `<title>` tag is present but has no `.string`
(e.g. `<html><head><title></title></head></html>`). -/
def emptyTitleDoc : Html := ⟨[], [], some none, [], []⟩

/-- Two same-domain anchors. -/
def twoLinkDoc : Html :=
  ⟨[str "https://example.com/a", str "https://example.com/b"], [], none, [], []⟩

/-- A set iteration order as seen by one interpreter run. -/
def runOrderA : List Str → List Str := List.dedup

/-- A set iteration order as seen by another interpreter run (string
hashes are randomized per process, so the iteration order of the same
set can differ between runs). -/
def runOrderB : List Str → List Str := fun l => l.dedup.reverse

/-- A four-page link chain `a → b → c → d`. -/
def chainLinks : Str → List Str := fun u =>
  if u = str "a" then [str "b"]
  else if u = str "b" then [str "c"]
  else if u = str "c" then [str "d"]
  else []

/-- The manifest `scrape_website` produces for `emptyDoc` fetched from
`http://e.com` into `out` with `download_js=False`. -/
def demoManifest : Manifest :=
  { url := str "http://e.com"
    domain := str "e.com"
    html_file := str "out/e_com/index.html"
    metadata := { title := [], description := [], keywords := [], author := [], og_tags := [] }
    text_content := []
    js_files := []
    js_count := 0
    timestamp := []
    success := true }

/-! ## Shared helper lemmas -/

theorem stripFragment_idem (u : Str) : stripFragment (stripFragment u) = stripFragment u :=
  List.takeWhile_idem

theorem urlScheme_stripFragment (u : Str) : urlScheme (stripFragment u) = urlScheme u := by
  unfold urlScheme
  rw [stripFragment_idem]

theorem urlNetloc_stripFragment (u : Str) : urlNetloc (stripFragment u) = urlNetloc u := by
  unfold urlNetloc
  rw [stripFragment_idem]

theorem hash_not_mem_stripFragment (u : Str) : '#' ∉ stripFragment u := by
  intro h
  have := List.mem_takeWhile_imp h
  simp at this

theorem setListSpec_dedup : SetListSpec List.dedup :=
  fun l => ⟨List.nodup_dedup l, fun _ => List.mem_dedup⟩

theorem setListSpec_revDedup : SetListSpec runOrderB :=
  fun l => ⟨List.nodup_reverse.2 (List.nodup_dedup l), fun x => by
    simp [runOrderB, List.mem_dedup]⟩

/-! ## Claim theorems -/

/-- C9: for every markup input, `extract_text_content` returns a string
of length at most 10,000 characters; the cap is a truncation, not an
error (the function is total and ends in `text[:10000]`). -/
theorem extract_text_content_bounded (doc : Html) :
    (extract_text_content doc).length ≤ 10000 := by
  simp only [extract_text_content, List.length_take]
  omega

/-- C6: the claim that the metadata extractor never raises is violated
by the code: `extract_metadata` evaluates `soup.title.string.strip()`
(scraper.py:42), which raises `AttributeError` whenever a `<title>` tag
is present but its `.string` is `None` (for instance
`<html><head><title></title></head></html>`); with no `<title>` tag at
all, every field does default to the empty string / empty collection. -/
theorem extract_metadata_title_crash :
    extract_metadata emptyTitleDoc = Except.error PyErr.attributeError ∧
    extract_metadata emptyDoc =
      Except.ok { title := [], description := [], keywords := [], author := [], og_tags := [] } :=
  ⟨rfl, rfl⟩

/-- C7 (counterexample): when the curl subprocess exits non-zero with a
non-empty captured stdout (e.g. a partial transfer), `fetch_with_curl`
returns that stdout — not empty content — alongside `ok = false`, so
failure is not always paired with empty content as claimed. -/
theorem fetch_with_curl_nonzero_exit_keeps_content :
    fetch_with_curl (Except.ok ⟨1, str "chunk"⟩) = (str "chunk", false) ∧
    str "chunk" ≠ ([] : Str) := by
  constructor
  · rfl
  · decide

/-- C7 (amended): `fetch_with_curl` never raises; an exception from the
subprocess layer (network failure, timeout) is caught and mapped to
`ok = false` with empty content; when the subprocess completes, the
captured stdout is returned, with `ok = true` exactly when the exit
code is zero and the output is non-empty — so on a non-zero tool exit
the returned content is the captured (possibly non-empty) output. -/
theorem fetch_with_curl_total (run : Except PyErr SubprocResult) :
    ((fetch_with_curl run).2 = true ↔
      ∃ r, run = Except.ok r ∧ r.returncode = 0 ∧ r.stdout ≠ []) ∧
    (∀ r, run = Except.ok r → (fetch_with_curl run).1 = r.stdout) ∧
    (∀ e, run = Except.error e → fetch_with_curl run = ([], false)) := by
  refine ⟨?_, ?_, ?_⟩
  · cases run with
    | error e => simp [fetch_with_curl]
    | ok r =>
      simp only [fetch_with_curl, decide_eq_true_eq]
      constructor
      · rintro ⟨h0, hl⟩
        exact ⟨r, rfl, h0, by intro he; simp [he] at hl⟩
      · rintro ⟨r', hr', h0, hne⟩
        cases hr'
        exact ⟨h0, List.length_pos.2 hne⟩
  · intro r hr
    cases hr
    rfl
  · intro e he
    cases he
    rfl

theorem fetch_with_curl_total_witness :
    (fetch_with_curl (Except.ok ⟨0, str "c"⟩)).2 = true :=
  (fetch_with_curl_total (Except.ok ⟨0, str "c"⟩)).1.mpr
    ⟨⟨0, str "c"⟩, rfl, rfl, by decide⟩

/-- C10: every manifest `scrape_website` returns (rather than `None` or
a propagated exception) has `success = True` and `js_count` equal to the
length of its `js_files` list. -/
theorem scrape_manifest_wf (setList : List Str → List Str)
    (run : Except PyErr SubprocResult) (doc : Html) (dlOk : Str → Bool) (now : Str)
    (url output_dir : Str) (download_js : Bool) (m : Manifest)
    (h : scrape_website setList run doc dlOk now url output_dir download_js =
      Except.ok (some m)) :
    m.success = true ∧ m.js_count = m.js_files.length := by
  unfold scrape_website at h
  dsimp only at h
  split at h
  · simp at h
  · split at h
    · simp at h
    · simp only [Except.ok.injEq, Option.some.injEq] at h
      subst h
      exact ⟨rfl, rfl⟩

theorem scrape_manifest_wf_witness :
    demoManifest.success = true ∧ demoManifest.js_count = demoManifest.js_files.length :=
  scrape_manifest_wf List.dedup (Except.ok ⟨0, str "x"⟩) emptyDoc (fun _ => false) []
    (str "http://e.com") (str "out") false demoManifest rfl

/-- C5: every URL `extract_links` returns has the same host as the base
URL and an http/https scheme, carries no fragment, is not the base URL
itself, and the returned list has no duplicates — for any set iteration
order satisfying the `list(set(...))` contract. -/
theorem extract_links_sound (setList : List Str → List Str) (hs : SetListSpec setList)
    (doc : Html) (base_url : Str) :
    (extract_links setList doc base_url).Nodup ∧
    ∀ u ∈ extract_links setList doc base_url,
      urlNetloc u = urlNetloc base_url ∧
      (urlScheme u = str "http" ∨ urlScheme u = str "https") ∧
      '#' ∉ u ∧ u ≠ base_url := by
  refine ⟨(hs _).1, ?_⟩
  intro u hu
  have hraw : u ∈ linksRaw doc base_url := ((hs _).2 u).1 hu
  simp only [linksRaw, List.mem_filterMap] at hraw
  obtain ⟨href, -, heq⟩ := hraw
  by_cases hcond : urlNetloc (urljoin base_url href) = urlNetloc base_url ∧
      (urlScheme (urljoin base_url href) = str "http" ∨
        urlScheme (urljoin base_url href) = str "https")
  · rw [if_pos hcond] at heq
    by_cases hbase : stripFragment (urljoin base_url href) ≠ base_url
    · rw [if_pos hbase] at heq
      obtain rfl : stripFragment (urljoin base_url href) = u := Option.some.inj heq
      refine ⟨?_, ?_, hash_not_mem_stripFragment _, hbase⟩
      · rw [urlNetloc_stripFragment]
        exact hcond.1
      · rw [urlScheme_stripFragment]
        exact hcond.2
    · rw [if_neg hbase] at heq
      exact absurd heq (by simp)
  · rw [if_neg hcond] at heq
    exact absurd heq (by simp)

theorem extract_links_sound_witness :
    (extract_links List.dedup twoLinkDoc (str "https://example.com")).Nodup ∧
    str "https://example.com/a" ≠ str "https://example.com" :=
  ⟨(extract_links_sound List.dedup setListSpec_dedup twoLinkDoc (str "https://example.com")).1,
    ((extract_links_sound List.dedup setListSpec_dedup twoLinkDoc
      (str "https://example.com")).2 (str "https://example.com/a") (by decide)).2.2.2⟩

/-- C8 (counterexample): two interpreter runs differ only in the hash
iteration order of `set`; both orders satisfy the `list(set(...))`
contract, yet `extract_links` serializes the same two discovered links
in different orders, so the output is not byte-identical across runs. -/
theorem extract_links_order_leaks :
    SetListSpec runOrderA ∧ SetListSpec runOrderB ∧
    extract_links runOrderA twoLinkDoc (str "https://example.com") ≠
      extract_links runOrderB twoLinkDoc (str "https://example.com") :=
  ⟨setListSpec_dedup, setListSpec_revDedup, by decide⟩

/-- C8 (amended): for identical input markup and base URL, two runs of
the Extractor agree on the link and script-reference collections as
duplicate-free sets (the outputs are permutations of each other), and
the metadata and text outputs are identical since those functions do
not pass through a `set`; the serialization order of the link and
script collections, however, is the set iteration order and is not
guaranteed to be byte-identical across runs. -/
theorem extractor_deterministic_up_to_order
    (f g : List Str → List Str) (hf : SetListSpec f) (hg : SetListSpec g)
    (doc : Html) (base_url : Str) :
    List.Perm (extract_links f doc base_url) (extract_links g doc base_url) ∧
    List.Perm (extract_js_links f doc base_url) (extract_js_links g doc base_url) := by
  constructor
  · exact (List.perm_ext_iff_of_nodup (hf _).1 (hg _).1).2
      (fun a => ((hf _).2 a).trans ((hg _).2 a).symm)
  · exact (List.perm_ext_iff_of_nodup (hf _).1 (hg _).1).2
      (fun a => ((hf _).2 a).trans ((hg _).2 a).symm)

theorem extractor_deterministic_up_to_order_witness :
    List.Perm (extract_links runOrderA twoLinkDoc (str "https://example.com"))
      (extract_links runOrderB twoLinkDoc (str "https://example.com")) :=
  (extractor_deterministic_up_to_order runOrderA runOrderB setListSpec_dedup
    setListSpec_revDedup twoLinkDoc (str "https://example.com")).1

theorem crawlStep_inv {s s' : CrawlSt} (h : CrawlStep s s') (hs : CrawlInv s) :
    CrawlInv s' := by
  obtain ⟨hnd, hvq, hcur⟩ := hs
  cases h with
  | pop u rest visited =>
    refine ⟨(List.nodup_cons.1 hnd).2, ?_, ?_⟩
    · intro v hv
      exact fun hm => hvq v hv (List.mem_cons_of_mem _ hm)
    · intro _ v hv
      obtain rfl : u = v := Option.some.inj hv
      exact (List.nodup_cons.1 hnd).1
  | skip u queue visited h =>
    exact ⟨hnd, hvq, by simp⟩
  | mark u queue visited h =>
    refine ⟨hnd, ?_, by simp⟩
    intro v hv
    rcases List.mem_cons.1 hv with rfl | hv'
    · exact hcur rfl v rfl
    · exact hvq v hv'
  | enqueue l s h =>
    unfold enq
    split
    · rename_i hguard
      refine ⟨?_, ?_, ?_⟩
      · rw [← List.concat_eq_append]
        exact List.Nodup.concat hguard.2 hnd
      · intro v hv
        simp only [List.mem_append, List.mem_singleton]
        rintro (hq | rfl)
        · exact hvq v hv hq
        · exact hguard.1 hv
      · intro hpc
        rw [h] at hpc
        cases hpc
    · exact ⟨hnd, hvq, fun hpc => by rw [h] at hpc; cases hpc⟩
  | finish u queue visited =>
    exact ⟨hnd, hvq, by simp⟩

theorem crawlReach_inv {start_url : Str} {s : CrawlSt} (h : CrawlReach start_url s) :
    CrawlInv s := by
  induction h with
  | refl => exact ⟨List.nodup_singleton _, by simp [crawlInit], by simp [crawlInit]⟩
  | tail _ step ih => exact crawlStep_inv step ih

/-- C1: in every state the crawl loop can reach, no URL in the visited
set is in the frontier queue; and the guarded enqueue (crawler.py:264)
is a no-op whenever the link is already visited or already queued. -/
theorem visited_never_reenters_queue :
    (∀ (l : Str) (s : CrawlSt), l ∈ s.visited ∨ l ∈ s.queue → enq l s = s) ∧
    (∀ (start_url : Str) (s : CrawlSt), CrawlReach start_url s →
      ∀ u ∈ s.visited, u ∉ s.queue) := by
  constructor
  · intro l s hl
    unfold enq
    rw [if_neg]
    tauto
  · intro start_url s h u hu
    exact (crawlReach_inv h).2.1 u hu

theorem visited_never_reenters_queue_witness :
    enq (str "a") ⟨[], [str "a"], some (str "a"), .marked⟩ =
      ⟨[], [str "a"], some (str "a"), .marked⟩ ∧
    str "a" ∉ (⟨[], [str "a"], some (str "a"), .marked⟩ : CrawlSt).queue := by
  constructor
  · exact visited_never_reenters_queue.1 (str "a") _ (Or.inl (by decide))
  · refine visited_never_reenters_queue.2 (str "a") _ ?_ (str "a") (by decide)
    exact Relation.ReflTransGen.tail
      (Relation.ReflTransGen.tail Relation.ReflTransGen.refl
        (CrawlStep.pop (str "a") [] []))
      (CrawlStep.mark (str "a") [] [] (by decide))

theorem taskStep_status_mono {a b : TaskPhase} (h : TaskStep a b) {s : AStatus}
    (hs : statusOf a = some s) : ∃ s', statusOf b = some s' ∧ s.rank ≤ s'.rank := by
  cases h with
  | submit => cases hs
  | take =>
    obtain rfl : AStatus.queued = s := Option.some.inj hs
    exact ⟨.analyzing, rfl, by decide⟩
  | finish =>
    obtain rfl : AStatus.analyzing = s := Option.some.inj hs
    exact ⟨.complete, rfl, by decide⟩
  | fail =>
    obtain rfl : AStatus.analyzing = s := Option.some.inj hs
    exact ⟨.analyzing, rfl, by decide⟩

/-- C2: along any sequence of producer/consumer steps, the status
recorded for a URL in `analysis_results` never decreases in the order
queued < analyzing < complete — in particular it never moves from
complete back to queued or from analyzing back to queued. -/
theorem analysis_status_monotone :
    ∀ t t' : TaskPhase, Relation.ReflTransGen TaskStep t t' →
      ∀ s s' : AStatus, statusOf t = some s → statusOf t' = some s' →
        s.rank ≤ s'.rank := by
  have key : ∀ t t' : TaskPhase, Relation.ReflTransGen TaskStep t t' →
      ∀ s : AStatus, statusOf t = some s →
        ∃ s', statusOf t' = some s' ∧ s.rank ≤ s'.rank := by
    intro t t' h
    induction h with
    | refl => exact fun s hs => ⟨s, hs, le_refl _⟩
    | tail _ step ih =>
      intro s hs
      obtain ⟨sb, hsb, hle⟩ := ih s hs
      obtain ⟨sc, hsc, hle'⟩ := taskStep_status_mono step hsb
      exact ⟨sc, hsc, hle.trans hle'⟩
  intro t t' h s s' hs hs'
  obtain ⟨s'', hs'', hle⟩ := key t t' h s hs
  rw [hs'] at hs''
  exact (Option.some.inj hs'') ▸ hle

theorem analysis_status_monotone_witness :
    AStatus.queued.rank ≤ AStatus.complete.rank :=
  analysis_status_monotone .inQueue .done
    (Relation.ReflTransGen.tail (Relation.ReflTransGen.single TaskStep.take)
      TaskStep.finish)
    .queued .complete rfl rfl

/-- C3: the worker is stopped (`stop_analysis.set`) only from a state
where the drain finished — `analysis_queue.join()` returned with no
unfinished task — and in every reachable state where the final counts
are computed or reported, every submitted task has been processed
(acknowledged by `task_done`, whether it completed or was abandoned on
error). -/
theorem drain_before_report :
    (∀ s s' : DrainSt, DrainStep s s' → s'.phase = .stopped →
      s.pending = 0 ∧ s.phase = .draining) ∧
    (∀ s : DrainSt, DrainReach s → s.phase = .stopped ∨ s.phase = .reported →
      s.pending = 0) := by
  constructor
  · intro s s' h h'
    cases h with
    | submit n => cases h'
    | process n ph hph => rcases hph with rfl | rfl <;> cases h'
    | finishLoop n => cases h'
    | joinDone => exact ⟨rfl, rfl⟩
    | report => cases h'
  · intro s h
    induction h with
    | refl => rintro (h | h) <;> cases h
    | tail _ step ih =>
      cases step with
      | submit n => rintro (h | h) <;> cases h
      | process n ph hph =>
        rcases hph with rfl | rfl <;> (rintro (h | h) <;> cases h)
      | finishLoop n => rintro (h | h) <;> cases h
      | joinDone => exact fun _ => rfl
      | report => exact fun _ => rfl

theorem drain_before_report_witness :
    (⟨0, DrainPhase.reported⟩ : DrainSt).pending = 0 := by
  refine drain_before_report.2 ⟨0, .reported⟩ ?_ (Or.inr rfl)
  exact Relation.ReflTransGen.tail
    (Relation.ReflTransGen.tail
      (Relation.ReflTransGen.tail
        (Relation.ReflTransGen.tail
          (Relation.ReflTransGen.single (DrainStep.submit 0))
          (DrainStep.finishLoop 1))
        (DrainStep.process 0 .draining (Or.inr rfl)))
      DrainStep.joinDone)
    DrainStep.report

theorem mem_enqAll_left (visited : List Str) (links : List Str) :
    ∀ (q : List Str) (x : Str), x ∈ q → x ∈ enqAll visited q links := by
  induction links with
  | nil => intro q x hx; simpa [enqAll] using hx
  | cons a ls ih =>
    intro q x hx
    rw [show enqAll visited q (a :: ls) =
      enqAll visited (if a ∉ visited ∧ a ∉ q then q ++ [a] else q) ls from rfl]
    apply ih
    split <;> simp [hx]

theorem mem_enqAll_links (visited : List Str) (links : List Str) :
    ∀ (q : List Str) (l : Str), l ∈ links → l ∈ visited ∨ l ∈ enqAll visited q links := by
  induction links with
  | nil => simp
  | cons a ls ih =>
    intro q l hl
    rw [show enqAll visited q (a :: ls) =
      enqAll visited (if a ∉ visited ∧ a ∉ q then q ++ [a] else q) ls from rfl]
    rcases List.mem_cons.1 hl with rfl | hl'
    · by_cases hv : l ∈ visited
      · exact Or.inl hv
      · refine Or.inr (mem_enqAll_left visited ls _ l ?_)
        split
        · simp
        · rename_i hg
          push_neg at hg
          exact hg hv
    · exact ih _ l hl'

theorem crawlLoop_le (fetchOk : Str → Bool) (setList : List Str → List Str)
    (scrapeRun : Str → Except PyErr SubprocResult) (pageDoc : Str → Html)
    (dlOk : Str → Bool) (now output_dir : Str)
    (pageLinks : Str → List Str) (maxPages : Nat) :
    ∀ (q v : List Str) (s : Nat), s ≤ maxPages →
      ∀ r, crawlLoop fetchOk setList scrapeRun pageDoc dlOk now output_dir
        pageLinks maxPages q v s = Except.ok r → r.2.2 ≤ maxPages := by
  intro q v s
  induction q, v, s using crawlLoop.induct fetchOk setList scrapeRun pageDoc dlOk now
      output_dir pageLinks maxPages with
  | case1 v s =>
    intro hs r hr
    rw [crawlLoop] at hr
    cases hr
    exact hs
  | case2 u rest v s hm =>
    intro hs r hr
    rw [crawlLoop] at hr
    simp only [dif_pos hm] at hr
    cases hr
    exact hs
  | case3 u rest v s hm hv ih =>
    intro hs r hr
    rw [crawlLoop] at hr
    simp only [dif_neg hm, if_pos hv] at hr
    exact ih hs r hr
  | case4 u rest v s hm hv hf e heq =>
    intro hs r hr
    rw [crawlLoop] at hr
    simp [hm, hv, hf, heq] at hr
  | case5 u rest v s hm hv vis' hf q' a heq ih =>
    intro hs r hr
    rw [crawlLoop] at hr
    simp [hm, hv, hf, heq] at hr
    exact ih (by omega) r hr
  | case6 u rest v s hm hv vis' hf ih =>
    intro hs r hr
    rw [crawlLoop] at hr
    simp [hm, hv, hf] at hr
    exact ih hs r hr

theorem crawlLoop_exit (fetchOk : Str → Bool) (setList : List Str → List Str)
    (scrapeRun : Str → Except PyErr SubprocResult) (pageDoc : Str → Html)
    (dlOk : Str → Bool) (now output_dir : Str)
    (pageLinks : Str → List Str) (maxPages : Nat) :
    ∀ (q v : List Str) (s : Nat), s ≤ maxPages →
      ∀ r, crawlLoop fetchOk setList scrapeRun pageDoc dlOk now output_dir
        pageLinks maxPages q v s = Except.ok r → r.1 = [] ∨ r.2.2 = maxPages := by
  intro q v s
  induction q, v, s using crawlLoop.induct fetchOk setList scrapeRun pageDoc dlOk now
      output_dir pageLinks maxPages with
  | case1 v s =>
    intro _ r hr
    rw [crawlLoop] at hr
    cases hr
    exact Or.inl rfl
  | case2 u rest v s hm =>
    intro hs r hr
    rw [crawlLoop] at hr
    simp only [dif_pos hm] at hr
    cases hr
    right
    show s = maxPages
    omega
  | case3 u rest v s hm hv ih =>
    intro hs r hr
    rw [crawlLoop] at hr
    simp only [dif_neg hm, if_pos hv] at hr
    exact ih hs r hr
  | case4 u rest v s hm hv hf e heq =>
    intro hs r hr
    rw [crawlLoop] at hr
    simp [hm, hv, hf, heq] at hr
  | case5 u rest v s hm hv vis' hf q' a heq ih =>
    intro hs r hr
    rw [crawlLoop] at hr
    simp [hm, hv, hf, heq] at hr
    exact ih (by omega) r hr
  | case6 u rest v s hm hv vis' hf ih =>
    intro hs r hr
    rw [crawlLoop] at hr
    simp [hm, hv, hf] at hr
    exact ih hs r hr

theorem crawlLoop_const_false (setList : List Str → List Str)
    (scrapeRun : Str → Except PyErr SubprocResult) (pageDoc : Str → Html)
    (dlOk : Str → Bool) (now output_dir : Str)
    (pageLinks : Str → List Str) (maxPages : Nat) :
    ∀ (q v : List Str) (s : Nat),
      ∀ r, crawlLoop (fun _ => false) setList scrapeRun pageDoc dlOk now output_dir
        pageLinks maxPages q v s = Except.ok r → r.2.2 = s := by
  intro q v s
  induction q, v, s using crawlLoop.induct (fun _ => false) setList scrapeRun pageDoc
      dlOk now output_dir pageLinks maxPages with
  | case1 v s =>
    intro r hr
    rw [crawlLoop] at hr
    cases hr
    rfl
  | case2 u rest v s hm =>
    intro r hr
    rw [crawlLoop] at hr
    simp only [dif_pos hm] at hr
    cases hr
    rfl
  | case3 u rest v s hm hv ih =>
    intro r hr
    rw [crawlLoop] at hr
    simp only [dif_neg hm, if_pos hv] at hr
    exact ih r hr
  | case4 u rest v s hm hv hf e heq => simp at hf
  | case5 u rest v s hm hv vis' hf q' a heq ih => simp at hf
  | case6 u rest v s hm hv vis' hf ih =>
    intro r hr
    rw [crawlLoop] at hr
    simp [hm, hv] at hr
    exact ih r hr

theorem extract_metadata_ok (doc : Html) (h : doc.title ≠ some none) :
    ∃ md, extract_metadata doc = Except.ok md := by
  cases htitle : doc.title with
  | none =>
    exact ⟨doc.metas.foldl metaStep
      { title := [], description := [], keywords := [], author := [], og_tags := [] },
      by unfold extract_metadata; rw [htitle]⟩
  | some t =>
    cases t with
    | none => exact absurd htitle h
    | some s0 =>
      exact ⟨doc.metas.foldl metaStep
        { title := pyStrip s0, description := [], keywords := [], author := [],
          og_tags := [] },
        by unfold extract_metadata; rw [htitle]⟩

theorem scrape_website_error_title (setList : List Str → List Str)
    (run : Except PyErr SubprocResult) (doc : Html) (dlOk : Str → Bool) (now : Str)
    (url output_dir : Str) (download_js : Bool) (e : PyErr)
    (h : scrape_website setList run doc dlOk now url output_dir download_js =
      Except.error e) :
    doc.title = some none := by
  by_contra hne
  obtain ⟨md, hmd⟩ := extract_metadata_ok doc hne
  unfold scrape_website at h
  dsimp only at h
  split at h
  · simp at h
  · rw [hmd] at h
    simp at h

theorem crawlLoop_ok (fetchOk : Str → Bool) (setList : List Str → List Str)
    (scrapeRun : Str → Except PyErr SubprocResult) (pageDoc : Str → Html)
    (dlOk : Str → Bool) (now output_dir : Str)
    (pageLinks : Str → List Str) (maxPages : Nat)
    (hdoc : ∀ u : Str, (pageDoc u).title ≠ some none) :
    ∀ (q v : List Str) (s : Nat),
      ∃ r, crawlLoop fetchOk setList scrapeRun pageDoc dlOk now output_dir
        pageLinks maxPages q v s = Except.ok r := by
  intro q v s
  induction q, v, s using crawlLoop.induct fetchOk setList scrapeRun pageDoc dlOk now
      output_dir pageLinks maxPages with
  | case1 v s => exact ⟨([], v, s), by rw [crawlLoop]⟩
  | case2 u rest v s hm =>
    exact ⟨(u :: rest, v, s), by rw [crawlLoop]; simp only [dif_pos hm]⟩
  | case3 u rest v s hm hv ih =>
    obtain ⟨r, hr⟩ := ih
    exact ⟨r, by rw [crawlLoop]; simp only [dif_neg hm, if_pos hv]; exact hr⟩
  | case4 u rest v s hm hv hf e heq =>
    exact absurd
      (scrape_website_error_title setList (scrapeRun u) (pageDoc u) dlOk now
        u output_dir false e heq)
      (hdoc u)
  | case5 u rest v s hm hv vis' hf q' a heq ih =>
    obtain ⟨r, hr⟩ := ih
    refine ⟨r, ?_⟩
    rw [crawlLoop]
    simp [hm, hv, hf, heq]
    exact hr
  | case6 u rest v s hm hv vis' hf ih =>
    obtain ⟨r, hr⟩ := ih
    refine ⟨r, ?_⟩
    rw [crawlLoop]
    simp [hm, hv, hf]
    exact hr

theorem crawlLoop_inv (setList : List Str → List Str)
    (scrapeRun : Str → Except PyErr SubprocResult) (pageDoc : Str → Html)
    (dlOk : Str → Bool) (now output_dir : Str)
    (pageLinks : Str → List Str) (maxPages : Nat) (start_url : Str) :
    ∀ (q v : List Str) (s : Nat),
      LoopInv pageLinks start_url (q, v, s) →
      ∀ r, crawlLoop (fun _ => true) setList scrapeRun pageDoc dlOk now output_dir
        pageLinks maxPages q v s = Except.ok r → LoopInv pageLinks start_url r := by
  intro q v s
  induction q, v, s using crawlLoop.induct (fun _ => true) setList scrapeRun pageDoc
      dlOk now output_dir pageLinks maxPages with
  | case1 v s =>
    intro h r hr
    rw [crawlLoop] at hr
    cases hr
    exact h
  | case2 u rest v s hm =>
    intro h r hr
    rw [crawlLoop] at hr
    simp only [dif_pos hm] at hr
    cases hr
    exact h
  | case3 u rest v s hm hv ih =>
    intro h r hr
    rw [crawlLoop] at hr
    simp only [dif_neg hm, if_pos hv] at hr
    refine ih ?_ r hr
    unfold LoopInv at h ⊢
    obtain ⟨h1, h2, h3, h4⟩ := h
    refine ⟨h1, h2, ?_, ?_⟩
    · intro x hx l hl
      rcases h3 x hx l hl with hl' | hl'
      · exact Or.inl hl'
      · rcases List.mem_cons.1 hl' with rfl | hq
        · exact Or.inl hv
        · exact Or.inr hq
    · rcases h4 with h' | h'
      · exact Or.inl h'
      · rcases List.mem_cons.1 h' with rfl | hq
        · exact Or.inl hv
        · exact Or.inr hq
  | case4 u rest v s hm hv hf e heq =>
    intro h r hr
    rw [crawlLoop] at hr
    simp [hm, hv, hf, heq] at hr
  | case5 u rest v s hm hv vis' hf q' a heq ih =>
    intro h r hr
    rw [crawlLoop] at hr
    simp [hm, hv, hf, heq] at hr
    refine ih ?_ r hr
    unfold LoopInv at h ⊢
    obtain ⟨h1, h2, h3, h4⟩ := h
    refine ⟨List.nodup_cons.2 ⟨hv, h1⟩, ?_, ?_, ?_⟩
    · rw [show vis' = u :: v from rfl]
      simp [h2]
    · intro x hx l hl
      rcases List.mem_cons.1 hx with rfl | hx'
      · exact mem_enqAll_links (x :: v) (pageLinks x) rest l hl
      · rcases h3 x hx' l hl with hl' | hl'
        · exact Or.inl (List.mem_cons_of_mem _ hl')
        · rcases List.mem_cons.1 hl' with rfl | hq
          · exact Or.inl (List.mem_cons_self _ _)
          · exact Or.inr (mem_enqAll_left _ _ _ _ hq)
    · rcases h4 with h' | h'
      · exact Or.inl (List.mem_cons_of_mem _ h')
      · rcases List.mem_cons.1 h' with rfl | hq
        · exact Or.inl (List.mem_cons_self _ _)
        · exact Or.inr (mem_enqAll_left _ _ _ _ hq)
  | case6 u rest v s hm hv vis' hf ih => simp at hf

theorem reach_subset_visited (pageLinks : Str → List Str) (start_url : Str)
    (v : List Str) (hstart : start_url ∈ v)
    (hclosed : ∀ x ∈ v, ∀ l ∈ pageLinks x, l ∈ v) :
    ∀ x, Reach pageLinks start_url x → x ∈ v := by
  intro x hx
  induction hx with
  | base => exact hstart
  | step _ hl ih => exact hclosed _ ih _ hl

/-- Supporting result for C4: the budget logic of the crawl loop is
otherwise correct — when no fetched page has a `<title>` whose
`.string` is `None` (so `scrape_website` never raises), a crawl whose
page graph reaches more than `maxPages` pages and whose fetches all
succeed returns normally with `scraped_count` exactly at the budget;
for any fetch oracle a normal return never exceeds the budget; and
with every fetch failing a normal return carries `scraped_count = 0`. -/
theorem crawl_budget_exact_without_title_bug (setList : List Str → List Str)
    (scrapeRun : Str → Except PyErr SubprocResult) (pageDoc : Str → Html)
    (dlOk : Str → Bool) (now output_dir : Str)
    (pageLinks : Str → List Str) (maxPages : Nat) (start_url : Str) (S : Finset Str)
    (hdoc : ∀ u : Str, (pageDoc u).title ≠ some none)
    (hS : ∀ u ∈ S, Reach pageLinks start_url u)
    (hcard : maxPages < S.card) :
    (∃ r, crawlLoop (fun _ => true) setList scrapeRun pageDoc dlOk now output_dir
        pageLinks maxPages [start_url] [] 0 = Except.ok r ∧ r.2.2 = maxPages) ∧
    (∀ (fetchOk : Str → Bool) r,
      crawlLoop fetchOk setList scrapeRun pageDoc dlOk now output_dir
        pageLinks maxPages [start_url] [] 0 = Except.ok r → r.2.2 ≤ maxPages) ∧
    (∀ r, crawlLoop (fun _ => false) setList scrapeRun pageDoc dlOk now output_dir
        pageLinks maxPages [start_url] [] 0 = Except.ok r → r.2.2 = 0) := by
  refine ⟨?_,
    fun fetchOk r hr => crawlLoop_le fetchOk setList scrapeRun pageDoc dlOk now
      output_dir pageLinks maxPages _ _ _ (Nat.zero_le _) r hr,
    fun r hr => crawlLoop_const_false setList scrapeRun pageDoc dlOk now
      output_dir pageLinks maxPages _ _ _ r hr⟩
  obtain ⟨r, hr⟩ := crawlLoop_ok (fun _ => true) setList scrapeRun pageDoc dlOk now
    output_dir pageLinks maxPages hdoc [start_url] [] 0
  refine ⟨r, hr, ?_⟩
  have hinv : LoopInv pageLinks start_url r := by
    refine crawlLoop_inv setList scrapeRun pageDoc dlOk now output_dir pageLinks
      maxPages start_url [start_url] [] 0 ?_ r hr
    unfold LoopInv
    refine ⟨List.nodup_nil, rfl, ?_, Or.inr (List.mem_singleton_self _)⟩
    intro x hx
    cases hx
  have hle : r.2.2 ≤ maxPages := crawlLoop_le (fun _ => true) setList scrapeRun pageDoc
    dlOk now output_dir pageLinks maxPages _ _ _ (Nat.zero_le _) r hr
  rcases crawlLoop_exit (fun _ => true) setList scrapeRun pageDoc dlOk now output_dir
      pageLinks maxPages _ _ _ (Nat.zero_le _) r hr with hq | hs
  · exfalso
    unfold LoopInv at hinv
    obtain ⟨h1, h2, h3, h4⟩ := hinv
    rw [hq] at h3 h4
    have hclosed : ∀ x ∈ r.2.1, ∀ l ∈ pageLinks x, l ∈ r.2.1 := by
      intro x hx l hl
      rcases h3 x hx l hl with h' | h'
      · exact h'
      · cases h'
    have hstart : start_url ∈ r.2.1 := by
      rcases h4 with h' | h'
      · exact h'
      · cases h'
    have hsub : S ⊆ r.2.1.toFinset :=
      fun u hu => List.mem_toFinset.2
        (reach_subset_visited pageLinks start_url _ hstart hclosed u (hS u hu))
    have hcard2 := Finset.card_le_card hsub
    rw [List.toFinset_card_of_nodup h1] at hcard2
    omega
  · exact hs

/-- C4: the claim fails on the code.  In the concrete crawl below the
page graph is the four-page chain a → b → c → d (more than the budget
`max_pages = 3` of reachable pages) and every fetch succeeds — the
outer `fetch_with_curl` (crawler.py:259) succeeds for every URL, and the
fetch inside `scrape_website` returns exit code 0 with non-empty output
— yet the main loop does not terminate with `scraped_count = 3`: the
fetched start page has a `<title>` whose `.string` is `None`, so
`scrape_website` (crawler.py:267), which sits in a `try`/`finally` with
no `except`, raises `AttributeError` out of `Crawler.crawl` on the very
first iteration, before `scraped_count += 1` (268) ever runs.  The
first conjunct shows the four chain pages are distinct and reachable,
so the premises of the claim hold while its conclusion fails. -/
theorem crawl_aborts_on_title_bug :
    ([str "a", str "b", str "c", str "d"].Nodup ∧
      Reach chainLinks (str "a") (str "a") ∧
      Reach chainLinks (str "a") (str "b") ∧
      Reach chainLinks (str "a") (str "c") ∧
      Reach chainLinks (str "a") (str "d")) ∧
    crawlLoop (fun _ => true) List.dedup (fun _ => Except.ok ⟨0, str "x"⟩)
      (fun _ => emptyTitleDoc) (fun _ => false) [] (str "out") chainLinks 3
      [str "a"] [] 0 = Except.error PyErr.attributeError := by
  constructor
  · have hb : Reach chainLinks (str "a") (str "b") := Reach.step Reach.base (by decide)
    have hc : Reach chainLinks (str "a") (str "c") := Reach.step hb (by decide)
    have hd : Reach chainLinks (str "a") (str "d") := Reach.step hc (by decide)
    exact ⟨by decide, Reach.base, hb, hc, hd⟩
  · rw [crawlLoop]
    rfl
